import Mathlib

/-!
Shallow embedding of the patient-records frontend (Next.js page component,
`lib/api.ts`, `types/patient.ts`) and proofs about its validator, search
filter and submit/delete/fetch handlers.
-/

set_option maxRecDepth 4096

/-- The `Patient` record shape from `types/patient.ts` / `lib/api.ts`. -/
structure Patient where
  id : Nat
  nama : String
  nik : String
  tanggal_lahir : String
  jenis_kelamin : String
  alamat : String
  no_telepon : String
  email : Option String
  golongan_darah : String
  created_at : String
  updated_at : String
deriving DecidableEq, Repr

/-- The `PatientFormData` shape from `types/patient.ts` (all fields strings;
`email` is a plain string, empty meaning absent). -/
structure PatientFormData where
  nama : String
  nik : String
  tanggal_lahir : String
  jenis_kelamin : String
  alamat : String
  no_telepon : String
  email : String
  golongan_darah : String
deriving DecidableEq, Repr

/-- `FormErrors` from `types/patient.ts` is a string-keyed object; the
validator only ever assigns these eight keys, so it is embedded as one
optional message per field (`some msg` = the key is present). -/
structure FormErrors where
  nama : Option String := none
  nik : Option String := none
  tanggal_lahir : Option String := none
  jenis_kelamin : Option String := none
  alamat : Option String := none
  no_telepon : Option String := none
  golongan_darah : Option String := none
  email : Option String := none
deriving DecidableEq, Repr

/-- `Object.keys(e).length === 0`: no key was assigned. -/
def FormErrors.isEmpty (e : FormErrors) : Bool :=
  e.nama.isNone && e.nik.isNone && e.tanggal_lahir.isNone &&
  e.jenis_kelamin.isNone && e.alamat.isNone && e.no_telepon.isNone &&
  e.golongan_darah.isNone && e.email.isNone

/-- `initialFormData` from the page component. -/
def initialFormData : PatientFormData :=
  { nama := "", nik := "", tanggal_lahir := "", jenis_kelamin := "",
    alamat := "", no_telepon := "", email := "", golongan_darah := "" }

/-- JS `String.prototype.trim()`: strip leading and trailing whitespace
(the ASCII whitespace characters; JS additionally strips some exotic
Unicode spaces, which no claim exercises). Defined structurally over the
character list. -/
def jsTrim (s : String) : String :=
  ⟨((s.data.dropWhile Char.isWhitespace).reverse.dropWhile Char.isWhitespace).reverse⟩

/-- JS `String.prototype.toLowerCase()`, per-character ASCII lowering
(agrees with JS on ASCII, which is all the claims exercise). -/
def jsToLower (s : String) : String :=
  ⟨s.data.map Char.toLower⟩

/-- The JS regex `/^[0-9]+$/` used on the NIK: non-empty and every
character an ASCII digit. -/
def nikDigitsOnly (s : String) : Bool :=
  !s.data.isEmpty && s.data.all (fun c => c.isDigit)

/-- A character allowed by `[^\s@]` in the email regex: not whitespace and
not `@`. -/
def emailChar (c : Char) : Bool :=
  !c.isWhitespace && c != '@'

/-- Split a character list at the first occurrence of `c`; `none` when `c`
does not occur. -/
def splitAtChar (c : Char) : List Char → Option (List Char × List Char)
  | [] => none
  | x :: xs =>
    if x = c then some ([], xs)
    else
      match splitAtChar c xs with
      | none => none
      | some (l, r) => some (x :: l, r)

/-- Whether a `.` occurs at a position that is neither first nor last, so
the list matches `[^\s@]+\.[^\s@]+` once all its characters are known to be
`emailChar`. -/
def hasInternalDot : List Char → Bool
  | [] => false
  | _ :: rest => rest.dropLast.contains '.'

/-- The JS regex `/^[^\s@]+@[^\s@]+\.[^\s@]+$/` from `validateForm`: a
non-empty `@`-free, space-free local part, then `@`, then a domain part
(no `@`, no spaces) containing a dot that is neither its first nor its
last character. -/
def matchesEmail (s : String) : Bool :=
  match splitAtChar '@' s.data with
  | none => false
  | some (l, r) =>
    !l.isEmpty && l.all emailChar && r.all emailChar && hasInternalDot r

/-- `validateForm` from the page component: one error message per failing
rule, keyed by field. JS truthiness of a string is `≠ ""`. -/
def validateForm (f : PatientFormData) : FormErrors :=
  { nama := if jsTrim f.nama = "" then some "Nama tidak boleh kosong" else none
    nik :=
      if jsTrim f.nik = "" then some "NIK tidak boleh kosong"
      else if nikDigitsOnly f.nik = false then some "NIK hanya boleh berisi angka"
      else none
    tanggal_lahir :=
      if f.tanggal_lahir = "" then some "Tanggal lahir tidak boleh kosong" else none
    jenis_kelamin :=
      if f.jenis_kelamin = "" then some "Jenis kelamin tidak boleh kosong" else none
    alamat := if jsTrim f.alamat = "" then some "Alamat tidak boleh kosong" else none
    no_telepon :=
      if jsTrim f.no_telepon = "" then some "No telepon tidak boleh kosong" else none
    golongan_darah :=
      if f.golongan_darah = "" then some "Golongan darah tidak boleh kosong" else none
    email :=
      if f.email ≠ "" ∧ matchesEmail f.email = false then some "Format email tidak valid"
      else none }

-- sanity checks on concrete inputs
example : nikDigitsOnly "12AB" = false := by decide
example : nikDigitsOnly "123" = true := by decide
example : matchesEmail "a@b.c" = true := by decide
example : matchesEmail "a@b" = false := by decide
example : matchesEmail "" = false := by decide
example : matchesEmail "a@b.c.d" = true := by decide
example : matchesEmail "a@.c" = false := by decide
example : matchesEmail "a@c." = false := by decide
example : (validateForm initialFormData).isEmpty = false := by decide

/-- The draft of the scenario in C3: name "Ana", NIK "12AB", every other
required field filled, email absent. -/
def anaDraft : PatientFormData :=
  { nama := "Ana", nik := "12AB", tanggal_lahir := "1990-01-01",
    jenis_kelamin := "Perempuan", alamat := "Jl. Melati 1",
    no_telepon := "081234567890", email := "", golongan_darah := "A" }

example : validateForm anaDraft = { nik := some "NIK hanya boleh berisi angka" } := by
  decide

/-- Whether `needle` occurs at the start of `hay`. -/
def startsWith : List Char → List Char → Bool
  | _, [] => true
  | [], _ :: _ => false
  | h :: hs, n :: ns => h = n && startsWith hs ns

/-- JS `String.prototype.includes` over character lists: `needle` occurs
contiguously somewhere in `hay` (the empty needle always occurs). -/
def strIncludes (hay needle : List Char) : Bool :=
  match hay with
  | [] => needle.isEmpty
  | _ :: t => startsWith hay needle || strIncludes t needle

/-- `filteredPatients` from the page component:
`patients.filter(p => p.nama.toLowerCase().includes(keyword.toLowerCase()) || p.nik.includes(keyword))`. -/
def filteredPatients (patients : List Patient) (searchKeyword : String) : List Patient :=
  patients.filter (fun patient =>
    strIncludes (jsToLower patient.nama).data (jsToLower searchKeyword).data
      || strIncludes patient.nik.data searchKeyword.data)

/-- The page component's `useState` pieces, bundled as one record. -/
structure AppState where
  patients : List Patient
  loading : Bool
  formData : PatientFormData
  errors : FormErrors
  editingId : Option Nat
  showForm : Bool
  successMessage : String
  errorMessage : String
  searchKeyword : String
deriving DecidableEq, Repr

/-- The initial `useState` values of the component. -/
def initialState : AppState :=
  { patients := [], loading := true, formData := initialFormData,
    errors := {}, editingId := none, showForm := false,
    successMessage := "", errorMessage := "", searchKeyword := "" }

/-- The HTTP operations the component can issue through `lib/api.ts`,
recorded as a trace. -/
inductive ApiCall where
  | create
  | update (id : Nat)
  | deleteCall (id : Nat)
  | fetchList
deriving DecidableEq, Repr

/-- Outcome of a rejected create/update request as `handleSubmit`'s catch
block inspects it: an axios error carrying a response whose JSON body may
hold an `errors` array and a `message`, or a failure with no response
(network error / non-axios error). -/
inductive SubmitFailure where
  | response (errors : Option (List String)) (message : Option String)
  | network
deriving DecidableEq, Repr

/-- JS `Array.prototype.join(', ')`. -/
def joinComma : List String → String
  | [] => ""
  | [x] => x
  | x :: y :: xs => x ++ ", " ++ joinComma (y :: xs)

/-- The banner text `handleSubmit`'s catch block assembles: joined `errors`
array when present, else `message` when truthy, else the generic texts. -/
def submitFailureBanner : SubmitFailure → String
  | .response (some errs) _ => joinComma errs
  | .response none (some m) => if m = "" then "Terjadi kesalahan" else m
  | .response none none => "Terjadi kesalahan"
  | .network => "Terjadi kesalahan saat menyimpan data"

/-- `fetchPatients`: sets `loading`, awaits `getAllPatients`, stores the
list on success or the fetch banner on failure, finally clears `loading`
(the transient `loading = true` is not observable in this sequential
model, so only the final state is kept). -/
def fetchPatients (s : AppState) : Except Unit (List Patient) → AppState
  | .ok data => { s with patients := data, loading := false }
  | .error _ =>
    { s with errorMessage := "Gagal mengambil data pasien. Pastikan backend sudah berjalan.",
             loading := false }

/-- JS truthiness of `editingId : number | null`: `null` and `0` are falsy. -/
def editingTruthy : Option Nat → Bool
  | none => false
  | some id => id != 0

/-- `handleSubmit`: clear both banners, validate (recording the per-field
errors), stop on validation failure; otherwise issue update (when
`editingId` is truthy) or create, and on success reset the form, hide it
and refetch; on failure assemble the banner. `mres` is the mutation’s
outcome, `fetchRes` the refetch's outcome. Returns the new state and the
trace of issued calls. -/
def handleSubmit (s : AppState) (mres : Except SubmitFailure Unit)
    (fetchRes : Except Unit (List Patient)) : AppState × List ApiCall :=
  let s0 := { s with successMessage := "", errorMessage := "" }
  let newErrors := validateForm s0.formData
  let s1 := { s0 with errors := newErrors }
  if newErrors.isEmpty then
    let mutCall := if editingTruthy s.editingId then ApiCall.update (s.editingId.getD 0)
                   else ApiCall.create
    match mres with
    | .ok _ =>
      let msg := if editingTruthy s.editingId then "Data pasien berhasil diperbarui!"
                 else "Pasien baru berhasil ditambahkan!"
      let s2 := { s1 with successMessage := msg, formData := initialFormData,
                          editingId := none, showForm := false }
      (fetchPatients s2 fetchRes, [mutCall, ApiCall.fetchList])
    | .error e =>
      ({ s1 with errorMessage := submitFailureBanner e }, [mutCall])
  else
    (s1, [])

/-- `handleDelete`: after the `window.confirm` dialog (its answer is the
`confirmed` parameter; `nama` only appears in the dialog text), issue the
delete; on success set the banner and refetch, on failure set the error
banner. -/
def handleDelete (s : AppState) (id : Nat) (nama : String) (confirmed : Bool)
    (delRes : Except Unit Unit) (fetchRes : Except Unit (List Patient)) :
    AppState × List ApiCall :=
  let _ := nama
  if confirmed then
    match delRes with
    | .ok _ =>
      (fetchPatients { s with successMessage := "Data pasien berhasil dihapus!" } fetchRes,
       [ApiCall.deleteCall id, ApiCall.fetchList])
    | .error _ =>
      ({ s with errorMessage := "Gagal menghapus data pasien" }, [ApiCall.deleteCall id])
  else
    (s, [])

-- sanity checks on concrete inputs for the filter
def budi : Patient :=
  { id := 1, nama := "Budi", nik := "3201010101010001", tanggal_lahir := "1990-01-01",
    jenis_kelamin := "Laki-laki", alamat := "Jl. Mawar 2", no_telepon := "081111",
    email := none, golongan_darah := "B",
    created_at := "2025-01-01", updated_at := "2025-01-01" }

def sari : Patient :=
  { id := 2, nama := "Sari", nik := "3201010101010002", tanggal_lahir := "1992-02-02",
    jenis_kelamin := "Perempuan", alamat := "Jl. Kenanga 3", no_telepon := "082222",
    email := some "sari@example.com", golongan_darah := "O",
    created_at := "2025-01-02", updated_at := "2025-01-02" }

example : filteredPatients [budi, sari] "bu" = [budi] := by decide
example : filteredPatients [budi, sari] "" = [budi, sari] := by decide
example : filteredPatients [budi, sari] "0002" = [sari] := by decide

/-- A fully valid draft, used to exercise the submit handlers. -/
def goodDraft : PatientFormData :=
  { nama := "Ana", nik := "3201010101010003", tanggal_lahir := "1990-01-01",
    jenis_kelamin := "Perempuan", alamat := "Jl. Melati 1",
    no_telepon := "081234567890", email := "", golongan_darah := "A" }

/-- A state with the form open on a valid draft in create mode. -/
def formState : AppState :=
  { initialState with formData := goodDraft, showForm := true }

example : (validateForm goodDraft).isEmpty = true := by decide

/-! ### The spec's validation rules, stated declaratively (spec §4.1):
every required field non-empty (after trimming where textual), NIK all
digits, email absent or of the basic shape. -/

def specRulesPass (f : PatientFormData) : Prop :=
  jsTrim f.nama ≠ "" ∧ jsTrim f.nik ≠ "" ∧ nikDigitsOnly f.nik = true ∧
  f.tanggal_lahir ≠ "" ∧ f.jenis_kelamin ≠ "" ∧ jsTrim f.alamat ≠ "" ∧
  jsTrim f.no_telepon ≠ "" ∧ f.golongan_darah ≠ "" ∧
  (f.email = "" ∨ matchesEmail f.email = true)

/-! ### Helper lemmas -/

lemma ifSome_eq_none_iff {c : Prop} [Decidable c] {m : String} :
    (if c then some m else none) = none ↔ ¬c := by
  split_ifs with h <;> simp [h]

lemma ifSome2_eq_none_iff {c d : Prop} [Decidable c] [Decidable d] {m m' : String} :
    (if c then some m else if d then some m' else none) = none ↔ ¬c ∧ ¬d := by
  split_ifs with h h' <;> simp [*]

lemma validateForm_isEmpty_iff (f : PatientFormData) :
    (validateForm f).isEmpty = true ↔ specRulesPass f := by
  simp only [validateForm, FormErrors.isEmpty, Bool.and_eq_true,
    Option.isNone_iff_eq_none, ifSome_eq_none_iff, ifSome2_eq_none_iff,
    specRulesPass, Bool.not_eq_false, not_and_or, not_not, Bool.not_eq_true]
  tauto

lemma startsWith_iff (hay needle : List Char) :
    startsWith hay needle = true ↔ ∃ rest, hay = needle ++ rest := by
  induction hay generalizing needle with
  | nil =>
    cases needle with
    | nil => simp [startsWith]
    | cons n ns => simp [startsWith]
  | cons h t ih =>
    cases needle with
    | nil => simp [startsWith]
    | cons n ns =>
      simp only [startsWith, Bool.and_eq_true, decide_eq_true_eq, ih,
        List.cons_append, List.cons.injEq]
      constructor
      · rintro ⟨rfl, rest, rfl⟩; exact ⟨rest, rfl, rfl⟩
      · rintro ⟨rest, rfl, rfl⟩; exact ⟨rfl, rest, rfl⟩

lemma strIncludes_iff (hay needle : List Char) :
    strIncludes hay needle = true ↔ ∃ pre post, hay = pre ++ needle ++ post := by
  induction hay with
  | nil =>
    cases needle with
    | nil => exact ⟨fun _ => ⟨[], [], rfl⟩, fun _ => rfl⟩
    | cons n ns => simp [strIncludes]
  | cons h t ih =>
    simp only [strIncludes, Bool.or_eq_true, startsWith_iff, ih]
    constructor
    · rintro (⟨rest, hr⟩ | ⟨pre, post, hp⟩)
      · exact ⟨[], rest, by simpa using hr⟩
      · exact ⟨h :: pre, post, by simp [hp]⟩
    · rintro ⟨pre, post, hp⟩
      cases pre with
      | nil => exact Or.inl ⟨post, by simpa using hp⟩
      | cons x xs =>
        simp only [List.cons_append, List.cons.injEq] at hp
        exact Or.inr ⟨xs, post, hp.2⟩

lemma strIncludes_nil (hay : List Char) : strIncludes hay [] = true := by
  cases hay <;> simp [strIncludes, startsWith]

lemma splitAtChar_eq_some {c : Char} {cs l r : List Char}
    (h : splitAtChar c cs = some (l, r)) : cs = l ++ c :: r ∧ c ∉ l := by
  induction cs generalizing l r with
  | nil => simp [splitAtChar] at h
  | cons x xs ih =>
    by_cases hx : x = c
    · subst hx
      simp [splitAtChar] at h
      obtain ⟨hl, hr⟩ := h
      subst hl
      simp [hr]
    · simp only [splitAtChar, if_neg hx] at h
      cases hs : splitAtChar c xs with
      | none => rw [hs] at h; simp at h
      | some p =>
        rw [hs] at h
        obtain ⟨l', r'⟩ := p
        simp only [Option.some.injEq, Prod.mk.injEq] at h
        obtain ⟨hl, hr⟩ := h
        obtain ⟨he, hm⟩ := ih hs
        subst hr
        subst hl
        constructor
        · simp [he]
        · simp only [List.mem_cons, not_or]
          exact ⟨fun hc => hx hc.symm, hm⟩

lemma splitAtChar_append {c : Char} {l : List Char} (r : List Char) (h : c ∉ l) :
    splitAtChar c (l ++ c :: r) = some (l, r) := by
  induction l with
  | nil => simp [splitAtChar]
  | cons x xs ih =>
    simp only [List.mem_cons, not_or] at h
    simp [splitAtChar, Ne.symm h.1, ih h.2]

lemma splitAtChar_eq_none {c : Char} {cs : List Char}
    (h : splitAtChar c cs = none) : c ∉ cs := by
  induction cs with
  | nil => simp
  | cons x xs ih =>
    by_cases hx : x = c
    · subst hx; simp [splitAtChar] at h
    · simp only [splitAtChar, if_neg hx] at h
      cases hs : splitAtChar c xs with
      | none =>
        simp only [List.mem_cons, not_or]
        exact ⟨fun hc => hx hc.symm, ih hs⟩
      | some p => rw [hs] at h; obtain ⟨a, b⟩ := p; simp at h

lemma single_occ_unique {a : Char} {l₀ r₀ l r : List Char}
    (h₀ : a ∉ l₀) (hr : a ∉ r₀) (he : l₀ ++ a :: r₀ = l ++ a :: r) :
    l = l₀ ∧ r = r₀ := by
  induction l₀ generalizing l with
  | nil =>
    cases l with
    | nil => simpa using he.symm
    | cons x xs =>
      simp only [List.nil_append, List.cons_append, List.cons.injEq] at he
      obtain ⟨rfl, he⟩ := he
      exact absurd (he ▸ List.mem_append_right xs (List.mem_cons_self a r)) hr
  | cons b l₀' ih =>
    simp only [List.mem_cons, not_or] at h₀
    cases l with
    | nil =>
      simp only [List.cons_append, List.nil_append, List.cons.injEq] at he
      exact absurd he.1.symm h₀.1
    | cons x xs =>
      simp only [List.cons_append, List.cons.injEq] at he
      obtain ⟨rfl, he⟩ := he
      obtain ⟨h1, h2⟩ := ih h₀.2 he
      exact ⟨by rw [h1], h2⟩

lemma mem_dropLast_append (a : Char) (l₁ l₂ : List Char) (h : l₂ ≠ []) :
    a ∈ (l₁ ++ a :: l₂).dropLast := by
  induction l₁ with
  | nil =>
    cases l₂ with
    | nil => exact absurd rfl h
    | cons x xs => simp [List.dropLast]
  | cons b l₁' ih =>
    cases hc : l₁' ++ a :: l₂ with
    | nil => simp at hc
    | cons c cs =>
      simp only [List.cons_append, hc, List.dropLast]
      rw [← hc]
      exact List.mem_cons_of_mem b ih

lemma str_eq_empty_iff (s : String) : s = "" ↔ s.data = [] := by
  cases s with
  | mk d => simp [String.ext_iff]

lemma data_ne_nil {s : String} (h : s ≠ "") : s.data ≠ [] :=
  fun hd => h ((str_eq_empty_iff s).mpr hd)

lemma not_at_mem_of_all_emailChar {l : List Char} (h : l.all emailChar = true) :
    '@' ∉ l := by
  intro hm
  have := List.all_eq_true.mp h '@' hm
  simp [emailChar] at this

lemma count_filter_of_pred_true {α : Type} [DecidableEq α] {pred : α → Bool} {a : α}
    (h : pred a = true) (l : List α) : (l.filter pred).count a = l.count a := by
  induction l with
  | nil => rfl
  | cons b t ih =>
    by_cases hb : b = a
    · subst hb
      simp [List.filter_cons, h, List.count_cons, ih]
    · cases hpb : pred b <;>
        simp [List.filter_cons, hpb, List.count_cons, Ne.symm hb, ih]

lemma count_filter_of_pred_false {α : Type} [DecidableEq α] {pred : α → Bool} {a : α}
    (h : pred a = false) (l : List α) : (l.filter pred).count a = 0 := by
  rw [List.count_eq_zero]
  intro hm
  have hp := (List.mem_filter.mp hm).2
  rw [h] at hp
  exact absurd hp (by simp)


lemma bor_true_iff (a b : Bool) : (a || b) = true ↔ a = true ∨ b = true := by
  simp

/-! ## Claim theorems -/

/-- C1: for every draft, the validator's mapping contains an entry for each
required field that is empty (after trimming where textual), the mapping is
empty exactly when no rule fails, and a draft missing any required field
yields a non-empty mapping. -/
theorem C1_validateForm_required_fields (f : PatientFormData) :
    (jsTrim f.nama = "" → (validateForm f).nama.isSome = true)
  ∧ (jsTrim f.nik = "" → (validateForm f).nik.isSome = true)
  ∧ (f.tanggal_lahir = "" → (validateForm f).tanggal_lahir.isSome = true)
  ∧ (f.jenis_kelamin = "" → (validateForm f).jenis_kelamin.isSome = true)
  ∧ (jsTrim f.alamat = "" → (validateForm f).alamat.isSome = true)
  ∧ (jsTrim f.no_telepon = "" → (validateForm f).no_telepon.isSome = true)
  ∧ (f.golongan_darah = "" → (validateForm f).golongan_darah.isSome = true)
  ∧ ((validateForm f).isEmpty = true ↔ specRulesPass f)
  ∧ ((jsTrim f.nama = "" ∨ jsTrim f.nik = "" ∨ f.tanggal_lahir = "" ∨
      f.jenis_kelamin = "" ∨ jsTrim f.alamat = "" ∨ jsTrim f.no_telepon = "" ∨
      f.golongan_darah = "") → (validateForm f).isEmpty = false) := by
  refine ⟨?_, ?_, ?_, ?_, ?_, ?_, ?_, validateForm_isEmpty_iff f, ?_⟩
  · intro h; simp [validateForm, h]
  · intro h; simp [validateForm, h]
  · intro h; simp [validateForm, h]
  · intro h; simp [validateForm, h]
  · intro h; simp [validateForm, h]
  · intro h; simp [validateForm, h]
  · intro h; simp [validateForm, h]
  · intro hmiss
    cases hb : (validateForm f).isEmpty with
    | false => rfl
    | true =>
      obtain ⟨h1, h2, h3, h4, h5, h6, h7, h8, h9⟩ :=
        (validateForm_isEmpty_iff f).mp hb
      rcases hmiss with h | h | h | h | h | h | h <;> simp_all

/-- C1 witness: the all-empty initial draft gets an entry for every
required field and a non-empty mapping. -/
theorem C1_witness :
    jsTrim initialFormData.nama = ""
  ∧ (validateForm initialFormData).nama.isSome = true
  ∧ (validateForm initialFormData).nik.isSome = true
  ∧ (validateForm initialFormData).tanggal_lahir.isSome = true
  ∧ (validateForm initialFormData).jenis_kelamin.isSome = true
  ∧ (validateForm initialFormData).alamat.isSome = true
  ∧ (validateForm initialFormData).no_telepon.isSome = true
  ∧ (validateForm initialFormData).golongan_darah.isSome = true
  ∧ (validateForm initialFormData).isEmpty = false := by
  have h := C1_validateForm_required_fields initialFormData
  exact ⟨by decide, h.1 (by decide), h.2.1 (by decide), h.2.2.1 (by decide),
    h.2.2.2.1 (by decide), h.2.2.2.2.1 (by decide), h.2.2.2.2.2.1 (by decide),
    h.2.2.2.2.2.2.1 (by decide),
    h.2.2.2.2.2.2.2.2 (Or.inl (by decide))⟩

/-- C2: membership in the filtered list is exactly membership in the source
together with a case-insensitive substring match on the name or a substring
match on the NIK; the empty keyword returns the list unchanged; with
records "Budi" and "Sari", keyword "bu" yields only "Budi". (The filter is
a pure derivation, so the source list is never modified.) -/
theorem C2_filteredPatients_characterization :
    (∀ (ps : List Patient) (kw : String) (p : Patient),
      p ∈ filteredPatients ps kw ↔
        p ∈ ps ∧
          ((∃ pre post, (jsToLower p.nama).data = pre ++ (jsToLower kw).data ++ post) ∨
           (∃ pre post, p.nik.data = pre ++ kw.data ++ post)))
  ∧ (∀ ps : List Patient, filteredPatients ps "" = ps)
  ∧ filteredPatients [budi, sari] "bu" = [budi] := by
  refine ⟨?_, ?_, by decide⟩
  · intro ps kw p
    simp [filteredPatients, List.mem_filter, Bool.or_eq_true, strIncludes_iff]
  · intro ps
    refine List.filter_eq_self.mpr (fun p _ => ?_)
    have h1 : (jsToLower "").data = [] := rfl
    have h2 : ("" : String).data = [] := rfl
    rw [h1, h2, strIncludes_nil, strIncludes_nil]
    rfl

/-- C9: filtering an already-filtered-by-the-same-keyword list yields the
same list. -/
theorem C9_filteredPatients_idempotent (ps : List Patient) (kw : String) :
    filteredPatients (filteredPatients ps kw) kw = filteredPatients ps kw := by
  simp [filteredPatients, List.filter_filter, Bool.and_self]

/-- C10: the filtered result is a subsequence of the source (order and
duplicate multiplicity preserved, no foreign records): it is a sublist,
matching records keep their full multiplicity, and non-matching records do
not occur. -/
theorem C10_filteredPatients_sublist (ps : List Patient) (kw : String) :
    List.Sublist (filteredPatients ps kw) ps
  ∧ (∀ p : Patient,
      ((∃ pre post, (jsToLower p.nama).data = pre ++ (jsToLower kw).data ++ post) ∨
       (∃ pre post, p.nik.data = pre ++ kw.data ++ post)) →
      (filteredPatients ps kw).count p = ps.count p)
  ∧ (∀ p : Patient,
      ¬((∃ pre post, (jsToLower p.nama).data = pre ++ (jsToLower kw).data ++ post) ∨
        (∃ pre post, p.nik.data = pre ++ kw.data ++ post)) →
      (filteredPatients ps kw).count p = 0) := by
  refine ⟨List.filter_sublist ps, ?_, ?_⟩
  · intro p hp
    refine count_filter_of_pred_true ?_ ps
    rcases hp with h | h
    · exact (bor_true_iff _ _).mpr (Or.inl ((strIncludes_iff _ _).mpr h))
    · exact (bor_true_iff _ _).mpr (Or.inr ((strIncludes_iff _ _).mpr h))
  · intro p hp
    refine count_filter_of_pred_false ?_ ps
    cases hb : (strIncludes (jsToLower p.nama).data (jsToLower kw).data
        || strIncludes p.nik.data kw.data) with
    | false => rfl
    | true =>
      exfalso
      rcases (bor_true_iff _ _).mp hb with h | h
      · exact hp (Or.inl ((strIncludes_iff _ _).mp h))
      · exact hp (Or.inr ((strIncludes_iff _ _).mp h))

/-- C10 witness: with records "Budi" and "Sari" and keyword "bu", "Budi"
keeps its multiplicity and "Sari" does not occur. -/
theorem C10_witness :
    (filteredPatients [budi, sari] "bu").count budi = [budi, sari].count budi
  ∧ (filteredPatients [budi, sari] "bu").count sari = 0 := by
  have h := C10_filteredPatients_sublist [budi, sari] "bu"
  refine ⟨h.2.1 budi (Or.inl ⟨[], ['d', 'i'], by decide⟩), h.2.2 sari ?_⟩
  intro hp
  have hb : (strIncludes (jsToLower sari.nama).data (jsToLower "bu").data
      || strIncludes sari.nik.data "bu".data) = true := by
    rcases hp with hh | hh
    · exact (bor_true_iff _ _).mpr (Or.inl ((strIncludes_iff _ _).mpr hh))
    · exact (bor_true_iff _ _).mpr (Or.inr ((strIncludes_iff _ _).mpr hh))
  exact absurd hb (by decide)

/-- C3: any draft whose NIK contains a non-digit character gets a NIK entry
in the validator's mapping, and the "Ana"/"12AB" draft gets exactly one
error, on the NIK field. -/
theorem C3_nik_nondigit_flagged :
    (∀ f : PatientFormData, (∃ c ∈ f.nik.data, c.isDigit = false) →
      (validateForm f).nik.isSome = true)
  ∧ validateForm anaDraft = { nik := some "NIK hanya boleh berisi angka" } := by
  refine ⟨?_, by decide⟩
  rintro f ⟨c, hc, hd⟩
  have hall : f.nik.data.all (fun c => c.isDigit) = false := by
    cases hb : f.nik.data.all (fun c => c.isDigit) with
    | false => rfl
    | true =>
      have := List.all_eq_true.mp hb c hc
      rw [hd] at this
      simp at this
  have hdig : nikDigitsOnly f.nik = false := by
    simp [nikDigitsOnly, hall]
  by_cases ht : jsTrim f.nik = ""
  · simp [validateForm, ht]
  · simp [validateForm, ht, hdig]

/-- C3 witness: the "Ana"/"12AB" draft has a non-digit in its NIK and is
flagged on the NIK field. -/
theorem C3_witness :
    (∃ c ∈ anaDraft.nik.data, c.isDigit = false)
  ∧ (validateForm anaDraft).nik.isSome = true :=
  ⟨by decide, C3_nik_nondigit_flagged.1 anaDraft (by decide)⟩

/-- C4 counterexample: the "Ana" draft's email is the empty string, which
lacks "@", yet the validator does not flag the email field (the email rule
only applies when the field is non-empty). -/
theorem C4_counterexample :
    anaDraft.email.data.contains '@' = false
  ∧ (validateForm anaDraft).email.isSome = false := by
  decide

/-- C4 (amended): the validator never flags an email of shape "x@y.z"
(non-empty local part, domain and top-level segment, no spaces or extra
"@"), and always flags a present (non-empty) email that lacks "@" or that
lacks a dotted domain segment after its "@". -/
theorem C4_email_shape (f : PatientFormData) :
    (∀ x y z : String, f.email = x ++ "@" ++ y ++ "." ++ z →
      x ≠ "" → y ≠ "" → z ≠ "" →
      x.data.all emailChar = true → y.data.all emailChar = true →
      z.data.all emailChar = true →
      (validateForm f).email = none)
  ∧ (f.email ≠ "" → f.email.data.contains '@' = false →
      (validateForm f).email.isSome = true)
  ∧ (∀ l r : List Char, f.email.data = l ++ '@' :: r → r.contains '.' = false →
      (validateForm f).email.isSome = true) := by
  refine ⟨?_, ?_, ?_⟩
  · intro x y z he hx hy hz hax hay haz
    have hat : ("@" : String).data = ['@'] := rfl
    have hdot : ("." : String).data = ['.'] := rfl
    have hdata : f.email.data = x.data ++ '@' :: (y.data ++ '.' :: z.data) := by
      rw [he, String.data_append, String.data_append, String.data_append,
        String.data_append, hat, hdot]
      simp [List.append_assoc]
    have hnx : '@' ∉ x.data := not_at_mem_of_all_emailChar hax
    have hmatch : matchesEmail f.email = true := by
      simp only [matchesEmail, hdata, splitAtChar_append _ hnx]
      have h1 : x.data.isEmpty = false := by
        cases hxl : x.data with
        | nil => exact absurd hxl (data_ne_nil hx)
        | cons a t => rfl
      have hdotc : emailChar '.' = true := by decide
      have h2 : (y.data ++ '.' :: z.data).all emailChar = true := by
        simp [List.all_append, List.all_cons, hay, haz, hdotc]
      have h3 : hasInternalDot (y.data ++ '.' :: z.data) = true := by
        cases hyl : y.data with
        | nil => exact absurd hyl (data_ne_nil hy)
        | cons a t =>
          simp only [List.cons_append, hasInternalDot]
          exact List.elem_iff.mpr (mem_dropLast_append '.' t z.data (data_ne_nil hz))
      simp [h1, hax, h2, h3]
    simp [validateForm, hmatch]
  · intro hne hnoat
    have hm : matchesEmail f.email = false := by
      cases hs : splitAtChar '@' f.email.data with
      | none => simp [matchesEmail, hs]
      | some p =>
        exfalso
        obtain ⟨l, r⟩ := p
        have hsp := (splitAtChar_eq_some hs).1
        have hmem : '@' ∈ f.email.data := by
          rw [hsp]
          exact List.mem_append_right _ (List.mem_cons_self _ _)
        have hc : f.email.data.contains '@' = true := List.elem_iff.mpr hmem
        rw [hnoat] at hc
        simp at hc
    simp [validateForm, hne, hm]
  · intro l r hdec hnodot
    have hne : f.email ≠ "" := by
      intro h0
      rw [h0] at hdec
      simp at hdec
    have hm : matchesEmail f.email = false := by
      cases hs : splitAtChar '@' f.email.data with
      | none => simp [matchesEmail, hs]
      | some p =>
        obtain ⟨l₀, r₀⟩ := p
        cases hb : matchesEmail f.email with
        | false => rfl
        | true =>
          exfalso
          simp only [matchesEmail, hs, Bool.and_eq_true] at hb
          obtain ⟨⟨⟨hle, hlall⟩, hrall⟩, hdotr⟩ := hb
          have h0 := splitAtChar_eq_some hs
          have hna : '@' ∉ l₀ := h0.2
          have hnr : '@' ∉ r₀ := not_at_mem_of_all_emailChar hrall
          have heq : l₀ ++ '@' :: r₀ = l ++ '@' :: r := by rw [← h0.1, ← hdec]
          obtain ⟨hl, hr⟩ := single_occ_unique hna hnr heq
          have hdotmem : '.' ∈ r₀ := by
            cases hr0 : r₀ with
            | nil => rw [hr0] at hdotr; simp [hasInternalDot] at hdotr
            | cons a t =>
              rw [hr0] at hdotr
              simp only [hasInternalDot] at hdotr
              have hmem : '.' ∈ t.dropLast := List.elem_iff.mp hdotr
              exact List.mem_cons_of_mem a ((List.dropLast_sublist t).subset hmem)
          have hcon : r₀.contains '.' = true := List.elem_iff.mpr hdotmem
          rw [hr] at hnodot
          rw [hnodot] at hcon
          simp at hcon
    simp [validateForm, hne, hm]

/-- A draft with a well-formed email. -/
def emailDraft : PatientFormData := { goodDraft with email := "ana@example.com" }

/-- A draft whose email lacks "@". -/
def badEmailDraft : PatientFormData := { goodDraft with email := "ana.example.com" }

/-- A draft whose email has "@" but no dot after it. -/
def noDotDraft : PatientFormData := { goodDraft with email := "ana@examplecom" }

/-- C4 witness: "ana@example.com" is not flagged; "ana.example.com" (no
"@") and "ana@examplecom" (no domain dot) are flagged. -/
theorem C4_witness :
    (validateForm emailDraft).email = none
  ∧ (validateForm badEmailDraft).email.isSome = true
  ∧ (validateForm noDotDraft).email.isSome = true := by
  refine ⟨?_, ?_, ?_⟩
  · exact (C4_email_shape emailDraft).1 "ana" "example" "com" (by decide)
      (by decide) (by decide) (by decide) (by decide) (by decide) (by decide)
  · exact (C4_email_shape badEmailDraft).2.1 (by decide) (by decide)
  · exact (C4_email_shape noDotDraft).2.2 "ana".data "examplecom".data
      (by decide) (by decide)

/-- C5: when a valid submit is rejected, the banner is the joined `errors`
array when present, else the (truthy) `message`, else a generic text (also
on network error), and the entered values, editing id and form visibility
are untouched. -/
theorem C5_submit_failure_banner (s : AppState) (e : SubmitFailure)
    (fr : Except Unit (List Patient))
    (hv : (validateForm s.formData).isEmpty = true) :
    (∀ errs m, e = SubmitFailure.response (some errs) m →
      (handleSubmit s (Except.error e) fr).1.errorMessage = joinComma errs)
  ∧ (∀ m, e = SubmitFailure.response none (some m) → m ≠ "" →
      (handleSubmit s (Except.error e) fr).1.errorMessage = m)
  ∧ (e = SubmitFailure.response none none →
      (handleSubmit s (Except.error e) fr).1.errorMessage = "Terjadi kesalahan")
  ∧ (e = SubmitFailure.network →
      (handleSubmit s (Except.error e) fr).1.errorMessage =
        "Terjadi kesalahan saat menyimpan data")
  ∧ (handleSubmit s (Except.error e) fr).1.formData = s.formData
  ∧ (handleSubmit s (Except.error e) fr).1.showForm = s.showForm
  ∧ (handleSubmit s (Except.error e) fr).1.editingId = s.editingId := by
  refine ⟨?_, ?_, ?_, ?_, ?_, ?_, ?_⟩
  · rintro errs m rfl
    simp [handleSubmit, hv, submitFailureBanner]
  · rintro m rfl hm
    simp [handleSubmit, hv, submitFailureBanner, hm]
  · rintro rfl
    simp [handleSubmit, hv, submitFailureBanner]
  · rintro rfl
    simp [handleSubmit, hv, submitFailureBanner]
  · simp [handleSubmit, hv]
  · simp [handleSubmit, hv]
  · simp [handleSubmit, hv]

/-- C5 witness: a create rejected with errors ["NIK already exists"] shows
exactly that banner and leaves the populated form open. -/
theorem C5_witness :
    (validateForm formState.formData).isEmpty = true
  ∧ (handleSubmit formState
      (Except.error (SubmitFailure.response (some ["NIK already exists"]) none))
      (Except.ok [])).1.errorMessage = "NIK already exists"
  ∧ (handleSubmit formState
      (Except.error (SubmitFailure.response (some ["NIK already exists"]) none))
      (Except.ok [])).1.formData = formState.formData
  ∧ (handleSubmit formState
      (Except.error (SubmitFailure.response (some ["NIK already exists"]) none))
      (Except.ok [])).1.showForm = formState.showForm := by
  have h := C5_submit_failure_banner formState
    (SubmitFailure.response (some ["NIK already exists"]) none)
    (Except.ok []) (by decide)
  exact ⟨by decide, h.1 ["NIK already exists"] none rfl, h.2.2.2.2.1,
    h.2.2.2.2.2.1⟩

/-- C6: a submit whose draft fails validation issues no network call,
records the per-field errors, and leaves the draft values, editing id and
form visibility unchanged. -/
theorem C6_invalid_submit_aborts (s : AppState) (mres : Except SubmitFailure Unit)
    (fr : Except Unit (List Patient))
    (hv : (validateForm s.formData).isEmpty = false) :
    (handleSubmit s mres fr).2 = []
  ∧ (handleSubmit s mres fr).1.errors = validateForm s.formData
  ∧ (handleSubmit s mres fr).1.formData = s.formData
  ∧ (handleSubmit s mres fr).1.editingId = s.editingId
  ∧ (handleSubmit s mres fr).1.showForm = s.showForm := by
  refine ⟨?_, ?_, ?_, ?_, ?_⟩ <;> simp [handleSubmit, hv]

/-- C6 witness: submitting the all-empty initial draft issues no call and
keeps the form state. -/
theorem C6_witness :
    (validateForm initialState.formData).isEmpty = false
  ∧ (handleSubmit initialState (Except.ok ()) (Except.ok [])).2 = []
  ∧ (handleSubmit initialState (Except.ok ()) (Except.ok [])).1.formData =
      initialState.formData
  ∧ (handleSubmit initialState (Except.ok ()) (Except.ok [])).1.showForm =
      initialState.showForm := by
  have h := C6_invalid_submit_aborts initialState (Except.ok ()) (Except.ok [])
    (by decide)
  exact ⟨by decide, h.1, h.2.2.1, h.2.2.2.2⟩

/-- C7 counterexample: a create call completes (rejected by the service)
yet no list refetch follows — the refetch only happens inside the success
branch of the `try` block. -/
theorem C7_counterexample :
    (handleSubmit formState (Except.error SubmitFailure.network)
      (Except.ok [])).2 = [ApiCall.create]
  ∧ ApiCall.fetchList ∉
      (handleSubmit formState (Except.error SubmitFailure.network)
        (Except.ok [])).2 := by
  decide

/-- C7 (amended): every successful create, update or delete is immediately
followed by a full list refetch; a failed mutation is not followed by any
refetch. -/
theorem C7_refetch_after_success (s : AppState)
    (fr fr2 : Except Unit (List Patient)) (id : Nat) (nama : String) :
    ((validateForm s.formData).isEmpty = true →
      (handleSubmit s (Except.ok ()) fr).2 =
        [(if editingTruthy s.editingId then ApiCall.update (s.editingId.getD 0)
          else ApiCall.create), ApiCall.fetchList])
  ∧ (∀ e : SubmitFailure,
      ApiCall.fetchList ∉ (handleSubmit s (Except.error e) fr).2)
  ∧ (handleDelete s id nama true (Except.ok ()) fr2).2 =
      [ApiCall.deleteCall id, ApiCall.fetchList]
  ∧ (handleDelete s id nama true (Except.error ()) fr2).2 =
      [ApiCall.deleteCall id] := by
  refine ⟨?_, ?_, ?_, ?_⟩
  · intro hv
    simp [handleSubmit, hv]
  · intro e
    cases hv : (validateForm s.formData).isEmpty with
    | true =>
      cases he : editingTruthy s.editingId <;> simp [handleSubmit, hv, he]
    | false => simp [handleSubmit, hv]
  · simp [handleDelete]
  · simp [handleDelete]

/-- C7 witness: a successful create and a successful delete are each
followed by the list refetch. -/
theorem C7_witness :
    (validateForm formState.formData).isEmpty = true
  ∧ (handleSubmit formState (Except.ok ()) (Except.ok [])).2 =
      [ApiCall.create, ApiCall.fetchList]
  ∧ (handleDelete formState 7 "Budi" true (Except.ok ()) (Except.ok [])).2 =
      [ApiCall.deleteCall 7, ApiCall.fetchList] := by
  have h := C7_refetch_after_success formState (Except.ok []) (Except.ok []) 7 "Budi"
  refine ⟨by decide, ?_, h.2.2.1⟩
  have h1 := h.1 (by decide)
  simpa [formState, initialState, editingTruthy] using h1

/-- C8: a failed full-list fetch sets the single fetch banner, leaves the
in-memory list (and the success banner) unchanged, and the list starts out
empty. -/
theorem C8_fetch_failure_keeps_list (s : AppState) :
    (fetchPatients s (Except.error ())).patients = s.patients
  ∧ (fetchPatients s (Except.error ())).errorMessage =
      "Gagal mengambil data pasien. Pastikan backend sudah berjalan."
  ∧ (fetchPatients s (Except.error ())).successMessage = s.successMessage
  ∧ initialState.patients = [] :=
  ⟨rfl, rfl, rfl, rfl⟩
